import Mathlib

/-!
Verification of the editable-grid component of `front.py` (class
`EditRulesWindow`): row add/delete, the single inline cell-edit session,
and JSON persistence.  The tkinter Treeview's item collection is modelled
as a list of rows (each a list of cell strings); the three editing
variables `editing_entry` (holding the entry widget's current text),
`editing_item` and `editing_column_index` are modelled as `Option` fields.
Item references are modelled as positions into the row list.  Python
exceptions are modelled with `Except`.
-/

namespace Front

/-- A JSON value, as produced by Python's `json.load`.  Numbers are
modelled as integers (only integer cells occur in the claims). -/
inductive Json where
  | null : Json
  | bool (b : Bool) : Json
  | num (n : Int) : Json
  | str (s : String) : Json
  | arr (xs : List Json) : Json
  | obj (kvs : List (String × Json)) : Json

/-- The content found at the save-file path: no file at all, a file whose
text is not valid JSON, or a file holding a JSON value. -/
inductive FileContent where
  | missing : FileContent
  | invalid : FileContent
  | valid (j : Json) : FileContent

/-- The Python exceptions the grid code can raise: `FileNotFoundError`
from `open`, `json.JSONDecodeError` from `json.load`, `TypeError` from
iterating a non-iterable, `TclError` from Tk (bad item or column), and
`IndexError` from a list subscript. -/
inductive PyError where
  | fileNotFound : PyError
  | jsonDecodeError : PyError
  | typeError : PyError
  | tclError : PyError
  | indexError : PyError
deriving DecidableEq, Repr

/-- One row of the grid: the Treeview item's `values`, a list of cell
strings. -/
abbrev Row := List String

/-- State of an `EditRulesWindow`: the fixed headers, the Treeview's rows
in display order, and the three editing variables (`None` is modelled as
`none`; a live entry widget is modelled by `editing_entry = some text`
where `text` is the entry's current content). -/
structure GridState where
  headers : List String
  rows : List Row
  editing_entry : Option String
  editing_item : Option Nat
  editing_column_index : Option Nat
deriving DecidableEq, Repr

mutual

/-- String a JSON cell value takes when stored through
`tree.insert(values=...)` and read back via `item(..., "values")`.
Strings pass through unchanged; other scalars are stringified.  The
claims only exercise string and integer cells, so the rendering of
containers (a bracketed join) is a harmless approximation of Tk's
rendering. -/
def cellString : Json → String
  | Json.null => "None"
  | Json.bool true => "True"
  | Json.bool false => "False"
  | Json.num n => toString n
  | Json.str s => s
  | Json.arr xs => "[" ++ cellStringList xs ++ "]"
  | Json.obj kvs => "\x7b" ++ cellStringPairs kvs ++ "\x7d"

/-- Render a list of JSON values, comma separated. -/
def cellStringList : List Json → String
  | [] => ""
  | [x] => cellString x
  | x :: xs => cellString x ++ ", " ++ cellStringList xs

/-- Render JSON object entries, comma separated. -/
def cellStringPairs : List (String × Json) → String
  | [] => ""
  | [kv] => kv.1 ++ ": " ++ cellString kv.2
  | kv :: kvs => kv.1 ++ ": " ++ cellString kv.2 ++ ", " ++ cellStringPairs kvs

end

/-- Row of cell strings obtained when one element of the loaded JSON is
passed to `tree.insert(..., values=row)`.  A JSON array becomes one cell
per element; a string is split into Tcl-list words; any other scalar
becomes a single cell. -/
def jsonRowValues : Json → Row
  | Json.arr cells => cells.map cellString
  | Json.str s => (s.splitOn " ").filter (fun w => w ≠ "")
  | j => [cellString j]

/-- Rows inserted by the `for row in rows: self.tree.insert(...)` loop of
`load_rows`, given the value returned by `json.load`.  Iterating a
`null`/`bool`/`num` raises `TypeError`; iterating a dict yields its keys;
iterating a string yields its characters. -/
def jsonRows : Json → Except PyError (List Row)
  | Json.arr xs => Except.ok (xs.map jsonRowValues)
  | Json.obj kvs => Except.ok (kvs.map (fun kv => jsonRowValues (Json.str kv.1)))
  | Json.str s => Except.ok (s.toList.map (fun c => jsonRowValues (Json.str (String.singleton c))))
  | _ => Except.error PyError.typeError

/-- `load_rows` (front.py lines 173-181): open the save file, `json.load`
it, and insert every row at the end of the table.  `open` raises
`FileNotFoundError` on a missing file; `json.load` raises
`JSONDecodeError` on invalid JSON. -/
def load_rows (s : GridState) (c : FileContent) : Except PyError GridState :=
  match c with
  | FileContent.missing => Except.error PyError.fileNotFound
  | FileContent.invalid => Except.error PyError.jsonDecodeError
  | FileContent.valid j =>
      (jsonRows j).map (fun rs => { s with rows := s.rows ++ rs })

/-- Constructor (front.py lines 13-70): headers fixed, rows empty, no
editing state; `load_rows` is called only when the save file exists
(line 65: `if self.save_file and os.path.exists(self.save_file)` --
`self.save_file` is always a non-empty path string). -/
def init (headers : List String) (c : FileContent) : Except PyError GridState :=
  let s0 : GridState := { headers := headers, rows := [],
                          editing_entry := none, editing_item := none,
                          editing_column_index := none }
  match c with
  | FileContent.missing => Except.ok s0
  | _ => load_rows s0 c

/-- `add_row` (front.py lines 86-90): append one row of empty strings,
one per header. -/
def add_row (s : GridState) : GridState :=
  { s with rows := s.rows ++ [s.headers.map (fun _ => "")] }

/-- Remove from `rows` the rows whose position (counted from `i`) is in
`sel`; the net effect of the `for item in selected_items:
self.tree.delete(item)` loop of `delete_row`. -/
def removeSelected (rows : List Row) (sel : List Nat) (i : Nat) : List Row :=
  match rows with
  | [] => []
  | r :: rest =>
      if i ∈ sel then removeSelected rest sel (i + 1)
      else r :: removeSelected rest sel (i + 1)

/-- `delete_row` (front.py lines 92-98): delete every selected item.  The
selection is passed explicitly (in tkinter it is `self.tree.selection()`),
as the list of selected row positions. -/
def delete_row (s : GridState) (sel : List Nat) : GridState :=
  { s with rows := removeSelected s.rows sel 0 }

/-- `save_edit` (front.py lines 100-117): if the entry widget and both
location variables are set, write the entry's text into the target row at
the target column and clear all three variables; otherwise do nothing.
`tree.item` on a vanished item raises `TclError`; `values[idx]` with
`idx >= len(values)` raises `IndexError`. -/
def save_edit (s : GridState) : Except PyError GridState :=
  match s.editing_entry, s.editing_item, s.editing_column_index with
  | some text, some item, some col =>
      match s.rows[item]? with
      | none => Except.error PyError.tclError
      | some row =>
          if col < row.length then
            Except.ok { s with rows := s.rows.set item (row.set col text),
                               editing_entry := none,
                               editing_item := none,
                               editing_column_index := none }
          else Except.error PyError.indexError
  | _, _, _ => Except.ok s

/-- The guard pattern `if self.editing_entry: self.save_edit()` that opens
`edit_cell`, `save_edit_on_click` and `save_rows`. -/
def commit_pending (s : GridState) : Except PyError GridState :=
  if s.editing_entry.isSome then save_edit s else Except.ok s

/-- Second half of `edit_cell` (front.py lines 127-146): if the tree
selection is non-empty, start editing the first selected item at the
clicked column.  `sel` is the selection (row positions in selection order)
and `colIndex` is `int(identify_column(event.x)[1:]) - 1`.  Only
`col_index >= 0` is checked; `tree.bbox(item, column)` raises `TclError`
for a column beyond the displayed ones or a vanished item, and
`values[col_index]` raises `IndexError` when the row is shorter. -/
def start_edit (s : GridState) (sel : List Nat) (colIndex : Int) :
    Except PyError GridState :=
  match sel.head? with
  | none => Except.ok s
  | some item =>
      if 0 ≤ colIndex then
        if s.headers.length ≤ colIndex.toNat then Except.error PyError.tclError
        else
          match s.rows[item]? with
          | none => Except.error PyError.tclError
          | some row =>
              match row[colIndex.toNat]? with
              | none => Except.error PyError.indexError
              | some v =>
                  Except.ok { s with editing_entry := some v,
                                     editing_item := some item,
                                     editing_column_index := some colIndex.toNat }
      else Except.ok s

/-- `edit_cell` (front.py lines 119-146): commit any live edit first
(lines 123-125), then start a new edit on the first selected item. -/
def edit_cell (s : GridState) (sel : List Nat) (colIndex : Int) :
    Except PyError GridState :=
  match commit_pending s with
  | Except.error e => Except.error e
  | Except.ok s1 => start_edit s1 sel colIndex

/-- `save_edit_on_click` (front.py lines 152-157): commit the live edit,
if any, when clicking outside the editing cell. -/
def save_edit_on_click (s : GridState) : Except PyError GridState :=
  commit_pending s

/-- JSON value written by `json.dump(rows, f)` in `save_rows`: an array
of arrays of the cell strings. -/
def rowsToJson (rows : List Row) : Json :=
  Json.arr (rows.map (fun r => Json.arr (r.map Json.str)))

/-- `save_rows` (front.py lines 159-171): commit any live edit, then dump
all rows to the save file as JSON.  Returns the post-commit state and the
JSON written. -/
def save_rows (s : GridState) : Except PyError (GridState × Json) :=
  (commit_pending s).map (fun s1 => (s1, rowsToJson s1.rows))

/-- `addRows n s` is `n` successive calls of `add_row` starting from `s`. -/
def addRows : Nat → GridState → GridState
  | 0, s => s
  | n + 1, s => addRows n (add_row s)

/-- A one-column grid with one row and no live edit session, used as a
concrete instance in several witnesses. -/
def grid1 : GridState :=
  { headers := ["h"], rows := [["a"]], editing_entry := none,
    editing_item := none, editing_column_index := none }



theorem map_empty_eq_replicate (H : List String) :
    H.map (fun _ => "") = List.replicate H.length "" := by
  induction H with
  | nil => rfl
  | cons a t ih => simp [List.replicate_succ, ih]

theorem jsonRowValues_str_row (r : Row) :
    jsonRowValues (Json.arr (r.map Json.str)) = r := by
  show (r.map Json.str).map cellString = r
  induction r with
  | nil => rfl
  | cons a t ih => simp [List.map_cons, cellString, ih]

theorem jsonRows_rowsToJson (rows : List Row) :
    jsonRows (rowsToJson rows) = Except.ok rows := by
  show Except.ok ((rows.map (fun r => Json.arr (r.map Json.str))).map jsonRowValues) = _
  rw [List.map_map]
  congr 1
  induction rows with
  | nil => rfl
  | cons a t ih => simp only [List.map_cons, Function.comp_apply, jsonRowValues_str_row, ih]

/-- Claim C1: round-trip persistence: saving a grid with no live edit
session writes the JSON array of its rows, and loading that JSON into a
fresh grid reproduces the rows exactly, order and values preserved. -/
theorem save_load_roundtrip (s : GridState) (h : s.editing_entry = none) :
    save_rows s = Except.ok (s, rowsToJson s.rows) ∧
    load_rows { headers := s.headers, rows := [], editing_entry := none,
                editing_item := none, editing_column_index := none }
        (FileContent.valid (rowsToJson s.rows)) =
      Except.ok { headers := s.headers, rows := s.rows, editing_entry := none,
                  editing_item := none, editing_column_index := none } := by
  constructor
  · simp [save_rows, commit_pending, h, Except.map]
  · simp [load_rows, jsonRows_rowsToJson, Except.map]

theorem save_load_roundtrip_witness :
    save_rows { headers := ["Name", "Age"], rows := [["Alice", "30"], ["Bob", "25"]],
                editing_entry := none, editing_item := none,
                editing_column_index := none } =
      Except.ok ({ headers := ["Name", "Age"], rows := [["Alice", "30"], ["Bob", "25"]],
                   editing_entry := none, editing_item := none,
                   editing_column_index := none },
                 rowsToJson [["Alice", "30"], ["Bob", "25"]]) ∧
    load_rows { headers := ["Name", "Age"], rows := [], editing_entry := none,
                editing_item := none, editing_column_index := none }
        (FileContent.valid (rowsToJson [["Alice", "30"], ["Bob", "25"]])) =
      Except.ok { headers := ["Name", "Age"], rows := [["Alice", "30"], ["Bob", "25"]],
                  editing_entry := none, editing_item := none,
                  editing_column_index := none } :=
  save_load_roundtrip
    { headers := ["Name", "Age"], rows := [["Alice", "30"], ["Bob", "25"]],
      editing_entry := none, editing_item := none, editing_column_index := none } rfl

/-- Claim C9: constructing with a missing save file skips `load_rows`
entirely (which on a missing file would raise `FileNotFoundError`) and
yields a grid with zero rows. -/
theorem init_missing_empty (H : List String) :
    init H FileContent.missing =
      Except.ok { headers := H, rows := [], editing_entry := none,
                  editing_item := none, editing_column_index := none } ∧
    load_rows { headers := H, rows := [], editing_entry := none,
                editing_item := none, editing_column_index := none }
        FileContent.missing = Except.error PyError.fileNotFound :=
  ⟨rfl, rfl⟩

theorem addRows_spec (n : Nat) (s : GridState) :
    (addRows n s).headers = s.headers ∧
    (addRows n s).rows = s.rows ++ List.replicate n (List.replicate s.headers.length "") := by
  induction n generalizing s with
  | zero => simp [addRows]
  | succ m ih =>
      have h := ih (add_row s)
      simp only [addRows, add_row] at h ⊢
      rcases h with ⟨h1, h2⟩
      refine ⟨h1, ?_⟩
      rw [h2]
      simp [map_empty_eq_replicate, List.replicate_succ, List.append_assoc]

/-- Claim C7: starting from an empty grid, after `n` calls of `add_row`
the grid has exactly `n` rows, each of header-count length and all-empty,
and each call appends its row at the end. -/
theorem add_row_postcondition (H : List String) (n : Nat) :
    (addRows n { headers := H, rows := [], editing_entry := none,
                 editing_item := none, editing_column_index := none }).rows =
      List.replicate n (List.replicate H.length "") ∧
    (addRows (n + 1) { headers := H, rows := [], editing_entry := none,
                       editing_item := none, editing_column_index := none }).rows =
      (addRows n { headers := H, rows := [], editing_entry := none,
                   editing_item := none, editing_column_index := none }).rows ++
        [List.replicate H.length ""] := by
  have h1 := addRows_spec n { headers := H, rows := [], editing_entry := none,
                              editing_item := none, editing_column_index := none }
  have h2 := addRows_spec (n + 1) { headers := H, rows := [], editing_entry := none,
                                    editing_item := none, editing_column_index := none }
  simp only at h1 h2
  refine ⟨h1.2, ?_⟩
  rw [h1.2, h2.2]
  simp [List.replicate_succ']

/-- Claim C8: `save_edit` with no live session (any of the three editing
variables unset) leaves the state unchanged and raises no error. -/
theorem commit_no_session_noop (s : GridState)
    (h : s.editing_entry = none ∨ s.editing_item = none ∨
         s.editing_column_index = none) :
    save_edit s = Except.ok s := by
  rcases h with h | h | h
  · cases hi : s.editing_item <;> cases hc : s.editing_column_index <;>
      simp [save_edit, h, hi, hc]
  · cases he : s.editing_entry <;> cases hc : s.editing_column_index <;>
      simp [save_edit, h, he, hc]
  · cases he : s.editing_entry <;> cases hi : s.editing_item <;>
      simp [save_edit, h, he, hi]

theorem commit_no_session_noop_witness :
    save_edit { headers := ["h"], rows := [["a"]], editing_entry := none,
                editing_item := none, editing_column_index := none } =
      Except.ok { headers := ["h"], rows := [["a"]], editing_entry := none,
                  editing_item := none, editing_column_index := none } :=
  commit_no_session_noop
    { headers := ["h"], rows := [["a"]], editing_entry := none,
      editing_item := none, editing_column_index := none } (Or.inl rfl)


/-- Claim C2 counterexample: hydrating a two-header grid from a persisted
file holding `[["x"]]` succeeds and yields a row of length 1, not the
header count 2; `load_rows` performs no width validation. -/
theorem row_width_counterexample :
    init ["a", "b"] (FileContent.valid (Json.arr [Json.arr [Json.str "x"]])) =
      Except.ok { headers := ["a", "b"], rows := [["x"]], editing_entry := none,
                  editing_item := none, editing_column_index := none } ∧
    ¬ ((["x"] : Row).length = (["a", "b"] : List String).length) :=
  ⟨rfl, by decide⟩

/-- Claim C4 counterexample: a persisted file holding the valid JSON
`[1]` -- whose top level is an array but not an array of arrays -- is
loaded without any error: the row `["1"]` is silently inserted, instead
of the claimed FormatError. -/
theorem load_format_counterexample :
    load_rows { headers := ["h"], rows := [], editing_entry := none,
                editing_item := none, editing_column_index := none }
        (FileContent.valid (Json.arr [Json.num 1])) =
      Except.ok { headers := ["h"], rows := [["1"]], editing_entry := none,
                  editing_item := none, editing_column_index := none } :=
  rfl

/-- Claim C4 amended: `json.JSONDecodeError` (the FormatError) is raised
exactly for files that are not valid JSON; a valid-JSON top level that is
null, a boolean or a number raises `TypeError` when iterated; a top-level
string, object, or array of anything (not only of arrays) is accepted
without error. -/
theorem load_error_amended (s : GridState) :
    load_rows s FileContent.invalid = Except.error PyError.jsonDecodeError ∧
    load_rows s FileContent.missing = Except.error PyError.fileNotFound ∧
    jsonRows Json.null = Except.error PyError.typeError ∧
    (∀ b, jsonRows (Json.bool b) = Except.error PyError.typeError) ∧
    (∀ n, jsonRows (Json.num n) = Except.error PyError.typeError) ∧
    (∀ t, jsonRows (Json.str t) =
      Except.ok (t.toList.map (fun ch => jsonRowValues (Json.str (String.singleton ch))))) ∧
    (∀ kvs, jsonRows (Json.obj kvs) =
      Except.ok (kvs.map (fun kv => jsonRowValues (Json.str kv.1)))) ∧
    (∀ xs, jsonRows (Json.arr xs) = Except.ok (xs.map jsonRowValues)) :=
  ⟨rfl, rfl, rfl, fun _ => rfl, fun _ => rfl, fun _ => rfl, fun _ => rfl,
   fun _ => rfl⟩

/-- Claim C5 counterexample: with one header, one row selected and no
live session, a click resolving to column index 1 (equal to the header
count) is not ignored: `tree.bbox` raises a Tk error, because only
`col_index >= 0` is checked. -/
theorem begin_edit_bounds_counterexample :
    edit_cell { headers := ["h"], rows := [["a"]], editing_entry := none,
                editing_item := none, editing_column_index := none } [0] 1 =
      Except.error PyError.tclError :=
  rfl

/-- Claim C5 amended: only the lower bound of the column index is
validated.  With no live session a negative column index is a no-op, but
a column index at or above the header count with a selected row raises a
Tk error rather than being ignored. -/
theorem begin_edit_validation_amended (s : GridState) (sel : List Nat)
    (col : Int) (hne : s.editing_entry = none) :
    (col < 0 → edit_cell s sel col = Except.ok s) ∧
    (∀ item, sel.head? = some item → (s.headers.length : Int) ≤ col →
      edit_cell s sel col = Except.error PyError.tclError) := by
  have hcp : commit_pending s = Except.ok s := by simp [commit_pending, hne]
  constructor
  · intro hneg
    simp only [edit_cell, hcp]
    unfold start_edit
    cases h : sel.head? with
    | none => rfl
    | some item => simp [if_neg (not_le.mpr hneg)]
  · intro item hsel hge
    have h0 : 0 ≤ col := le_trans (Int.natCast_nonneg _) hge
    have htn : s.headers.length ≤ col.toNat := by omega
    simp only [edit_cell, hcp]
    simp [start_edit, hsel, if_pos h0, if_pos htn]

theorem begin_edit_validation_amended_witness :
    edit_cell grid1 [0] (-1) = Except.ok grid1 ∧
    edit_cell grid1 [0] 1 = Except.error PyError.tclError :=
  ⟨(begin_edit_validation_amended grid1 [0] (-1) rfl).1 (by decide),
   (begin_edit_validation_amended grid1 [0] 1 rfl).2 0 rfl (by decide)⟩

/-- Claim C10 counterexample: with the selection empty but an edit
session live (pending text "X" for cell (0,0)), a click does change
state: the pending text is committed into the row and the session is
cleared, so `edit_cell` on an empty selection is not free of state
change. -/
theorem edit_cell_empty_selection_counterexample :
    edit_cell { headers := ["h"], rows := [["a"]], editing_entry := some "X",
                editing_item := some 0, editing_column_index := some 0 } [] 0 =
      Except.ok { headers := ["h"], rows := [["X"]], editing_entry := none,
                  editing_item := none, editing_column_index := none } ∧
    ({ headers := ["h"], rows := [["X"]], editing_entry := none,
       editing_item := none, editing_column_index := none } : GridState) ≠
      { headers := ["h"], rows := [["a"]], editing_entry := some "X",
        editing_item := some 0, editing_column_index := some 0 } :=
  ⟨rfl, by decide⟩

/-- Claim C10 amended: with an empty selection `edit_cell` creates no new
session and its only effect is committing any live prior session (a pure
no-op when none is live); with a non-empty selection, a successfully
started session always targets the first item of the selection. -/
theorem edit_cell_selection_amended (s : GridState) :
    (s.editing_entry = none → ∀ col, edit_cell s [] col = Except.ok s) ∧
    (∀ col, edit_cell s [] col = commit_pending s) ∧
    (∀ sel item col s1, sel.head? = some item → 0 ≤ col →
      edit_cell s sel col = Except.ok s1 → s1.editing_item = some item) := by
  refine ⟨?_, ?_, ?_⟩
  · intro hne col
    simp [edit_cell, commit_pending, hne, start_edit]
  · intro col
    unfold edit_cell
    cases h : commit_pending s with
    | error e => rfl
    | ok s1 => simp [start_edit]
  · intro sel item col s1 hsel h0 hok
    unfold edit_cell at hok
    cases h : commit_pending s with
    | error e => rw [h] at hok; cases hok
    | ok s2 =>
        rw [h] at hok
        dsimp only at hok
        unfold start_edit at hok
        rw [hsel] at hok
        dsimp only at hok
        rw [if_pos h0] at hok
        split at hok
        · cases hok
        · cases hr : s2.rows[item]? with
          | none => rw [hr] at hok; cases hok
          | some row =>
              rw [hr] at hok
              dsimp only at hok
              cases hv : row[col.toNat]? with
              | none => rw [hv] at hok; cases hok
              | some v =>
                  rw [hv] at hok
                  dsimp only at hok
                  cases hok
                  rfl

theorem edit_cell_selection_amended_witness :
    edit_cell grid1 [] 0 = Except.ok grid1 ∧
    edit_cell grid1 [0] 0 = Except.ok
      { headers := ["h"], rows := [["a"]], editing_entry := some "a",
        editing_item := some 0, editing_column_index := some 0 } ∧
    ({ headers := ["h"], rows := [["a"]], editing_entry := some "a",
       editing_item := some 0,
       editing_column_index := some 0 } : GridState).editing_item = some 0 :=
  ⟨(edit_cell_selection_amended grid1).1 rfl 0, rfl,
   (edit_cell_selection_amended grid1).2.2 [0] 0 0
     { headers := ["h"], rows := [["a"]], editing_entry := some "a",
       editing_item := some 0, editing_column_index := some 0 }
     rfl (by decide) rfl⟩



theorem removeSelected_subset (rows : List Row) (sel : List Nat) (i : Nat)
    (r : Row) (h : r ∈ removeSelected rows sel i) : r ∈ rows := by
  induction rows generalizing i with
  | nil => simp [removeSelected] at h
  | cons a t ih =>
      simp only [removeSelected] at h
      split at h
      · exact List.mem_cons_of_mem a (ih _ h)
      · rcases List.mem_cons.mp h with h1 | h1
        · simp [h1]
        · exact List.mem_cons_of_mem a (ih _ h1)

theorem save_edit_width (s s1 : GridState) (n : Nat)
    (hinv : ∀ r ∈ s.rows, r.length = n) (h : save_edit s = Except.ok s1) :
    s1.headers = s.headers ∧ ∀ r ∈ s1.rows, r.length = n := by
  unfold save_edit at h
  cases he : s.editing_entry with
  | none => rw [he] at h; dsimp only at h; cases h; exact ⟨rfl, hinv⟩
  | some text =>
      rw [he] at h
      cases hi : s.editing_item with
      | none => rw [hi] at h; dsimp only at h; cases h; exact ⟨rfl, hinv⟩
      | some item =>
          rw [hi] at h
          cases hc : s.editing_column_index with
          | none => rw [hc] at h; dsimp only at h; cases h; exact ⟨rfl, hinv⟩
          | some col =>
              rw [hc] at h
              dsimp only at h
              cases hr : s.rows[item]? with
              | none => rw [hr] at h; cases h
              | some row =>
                  rw [hr] at h
                  dsimp only at h
                  split at h
                  · cases h
                    refine ⟨rfl, ?_⟩
                    intro r hmem
                    rcases List.mem_or_eq_of_mem_set hmem with h1 | h1
                    · exact hinv r h1
                    · rw [h1, List.length_set]
                      exact hinv row (List.getElem?_mem hr)
                  · cases h

theorem commit_pending_width (s s1 : GridState) (n : Nat)
    (hinv : ∀ r ∈ s.rows, r.length = n) (h : commit_pending s = Except.ok s1) :
    s1.headers = s.headers ∧ ∀ r ∈ s1.rows, r.length = n := by
  unfold commit_pending at h
  split at h
  · exact save_edit_width s s1 n hinv h
  · cases h; exact ⟨rfl, hinv⟩

theorem start_edit_ok_state (s s1 : GridState) (sel : List Nat) (col : Int)
    (h : start_edit s sel col = Except.ok s1) :
    s1.rows = s.rows ∧ s1.headers = s.headers := by
  unfold start_edit at h
  cases hs : sel.head? with
  | none => rw [hs] at h; dsimp only at h; cases h; exact ⟨rfl, rfl⟩
  | some item =>
      rw [hs] at h
      dsimp only at h
      split at h
      · split at h
        · cases h
        · cases hr : s.rows[item]? with
          | none => rw [hr] at h; cases h
          | some row =>
              rw [hr] at h
              dsimp only at h
              cases hv : row[col.toNat]? with
              | none => rw [hv] at h; cases h
              | some v =>
                  rw [hv] at h
                  dsimp only at h
                  cases h
                  exact ⟨rfl, rfl⟩
      · cases h; exact ⟨rfl, rfl⟩

theorem save_edit_live (s : GridState) (t : String) (r c : Nat) (row : Row)
    (he : s.editing_entry = some t) (hi : s.editing_item = some r)
    (hc : s.editing_column_index = some c)
    (hrow : s.rows[r]? = some row) (hcl : c < row.length) :
    save_edit s = Except.ok { headers := s.headers,
                              rows := s.rows.set r (row.set c t),
                              editing_entry := none, editing_item := none,
                              editing_column_index := none } := by
  unfold save_edit
  rw [he, hi, hc]
  dsimp only
  rw [hrow]
  dsimp only
  rw [if_pos hcl]

/-- Claim C3: starting a new edit while a session is live (pending text
`t` for cell `(r, c)`) first commits `t` into row `r` at column `c`, then
starts the new session on the first selected item; the pending text is
never silently lost. -/
theorem supersession_commits (s : GridState) (t : String) (r c : Nat)
    (row : Row) (he : s.editing_entry = some t) (hi : s.editing_item = some r)
    (hc : s.editing_column_index = some c) (hrow : s.rows[r]? = some row)
    (hcl : c < row.length) (sel : List Nat) (item : Nat)
    (hsel : sel.head? = some item) (col : Int) (h0 : 0 ≤ col)
    (hcol : col.toNat < s.headers.length) (row2 : Row)
    (hrow2 : (s.rows.set r (row.set c t))[item]? = some row2) (v : String)
    (hv : row2[col.toNat]? = some v) :
    edit_cell s sel col =
      Except.ok { headers := s.headers, rows := s.rows.set r (row.set c t),
                  editing_entry := some v, editing_item := some item,
                  editing_column_index := some col.toNat } ∧
    (s.rows.set r (row.set c t))[r]? = some (row.set c t) ∧
    (row.set c t)[c]? = some t := by
  have hse := save_edit_live s t r c row he hi hc hrow hcl
  have hr : r < s.rows.length := by
    rcases List.getElem?_eq_some.mp hrow with ⟨h1, -⟩; exact h1
  have hcp : commit_pending s = save_edit s := by
    unfold commit_pending
    rw [he]
    rfl
  refine ⟨?_, List.getElem?_set_self hr, List.getElem?_set_self hcl⟩
  unfold edit_cell
  rw [hcp, hse]
  dsimp only
  unfold start_edit
  rw [hsel]
  dsimp only
  rw [if_pos h0, if_neg (not_le.mpr hcol)]
  rw [hrow2]
  dsimp only
  rw [hv]

theorem supersession_commits_witness :
    edit_cell { headers := ["h"], rows := [["a"], ["b"]],
                editing_entry := some "X", editing_item := some 0,
                editing_column_index := some 0 } [1] 0 =
      Except.ok { headers := ["h"], rows := [["X"], ["b"]],
                  editing_entry := some "b", editing_item := some 1,
                  editing_column_index := some 0 } ∧
    ([["X"], ["b"]] : List Row)[0]? = some ["X"] ∧
    (["X"] : Row)[0]? = some "X" := by
  have h := supersession_commits
    { headers := ["h"], rows := [["a"], ["b"]], editing_entry := some "X",
      editing_item := some 0, editing_column_index := some 0 }
    "X" 0 0 ["a"] rfl rfl rfl rfl (by decide) [1] 1 rfl 0 (by decide)
    (by decide) ["b"] rfl "b" rfl
  exact h

/-- Claim C6: invoking `save_rows` with a live edit session (pending text
`t` for cell `(r, c)`) first commits `t` into row `r` at column `c` and
clears the session, and the JSON written to the file contains the
committed rows, with `t` at that cell. -/
theorem save_commits_pending (s : GridState) (t : String) (r c : Nat)
    (row : Row) (he : s.editing_entry = some t) (hi : s.editing_item = some r)
    (hc : s.editing_column_index = some c) (hrow : s.rows[r]? = some row)
    (hcl : c < row.length) :
    save_rows s = Except.ok
      ({ headers := s.headers, rows := s.rows.set r (row.set c t),
         editing_entry := none, editing_item := none,
         editing_column_index := none },
       rowsToJson (s.rows.set r (row.set c t))) ∧
    (s.rows.set r (row.set c t))[r]? = some (row.set c t) ∧
    (row.set c t)[c]? = some t := by
  have hse := save_edit_live s t r c row he hi hc hrow hcl
  have hr : r < s.rows.length := by
    rcases List.getElem?_eq_some.mp hrow with ⟨h1, -⟩; exact h1
  have hcp : commit_pending s = save_edit s := by
    unfold commit_pending
    rw [he]
    rfl
  refine ⟨?_, List.getElem?_set_self hr, List.getElem?_set_self hcl⟩
  unfold save_rows
  rw [hcp, hse]
  rfl

theorem save_commits_pending_witness :
    save_rows { headers := ["h"], rows := [["a"]], editing_entry := some "X",
                editing_item := some 0, editing_column_index := some 0 } =
      Except.ok ({ headers := ["h"], rows := [["X"]], editing_entry := none,
                   editing_item := none, editing_column_index := none },
                 rowsToJson [["X"]]) ∧
    ([["X"]] : List Row)[0]? = some ["X"] ∧
    (["X"] : Row)[0]? = some "X" := by
  have h := save_commits_pending
    { headers := ["h"], rows := [["a"]], editing_entry := some "X",
      editing_item := some 0, editing_column_index := some 0 }
    "X" 0 0 ["a"] rfl rfl rfl rfl (by decide)
  exact h

/-- Claim C2 amended: `add_row`, `delete_row`, `save_edit`, `edit_cell`
and `save_rows` all preserve the row-width invariant, but hydration does
not: `load_rows` performs no width validation, so loaded rows keep the
widths found in the file and the invariant holds after a load only when
every row in the file already has header-count width. -/
theorem row_width_invariant_amended (s : GridState)
    (hinv : ∀ r ∈ s.rows, r.length = s.headers.length) :
    (∀ r ∈ (add_row s).rows, r.length = s.headers.length) ∧
    (∀ sel, ∀ r ∈ (delete_row s sel).rows, r.length = s.headers.length) ∧
    (∀ s1, save_edit s = Except.ok s1 →
      ∀ r ∈ s1.rows, r.length = s.headers.length) ∧
    (∀ sel col s1, edit_cell s sel col = Except.ok s1 →
      ∀ r ∈ s1.rows, r.length = s.headers.length) ∧
    (∀ s1 j, save_rows s = Except.ok (s1, j) →
      ∀ r ∈ s1.rows, r.length = s.headers.length) ∧
    (∀ j rs s1, jsonRows j = Except.ok rs →
      (∀ r ∈ rs, r.length = s.headers.length) →
      load_rows s (FileContent.valid j) = Except.ok s1 →
      ∀ r ∈ s1.rows, r.length = s.headers.length) := by
  refine ⟨?_, ?_, ?_, ?_, ?_, ?_⟩
  · intro r hr
    rcases List.mem_append.mp hr with h1 | h1
    · exact hinv r h1
    · rcases List.mem_singleton.mp h1 with rfl
      exact List.length_map _ _
  · intro sel r hr
    exact hinv r (removeSelected_subset s.rows sel 0 r hr)
  · intro s1 h
    exact (save_edit_width s s1 _ hinv h).2
  · intro sel col s1 h
    unfold edit_cell at h
    cases hcp : commit_pending s with
    | error e => rw [hcp] at h; cases h
    | ok s2 =>
        rw [hcp] at h
        dsimp only at h
        have h2 := start_edit_ok_state s2 s1 sel col h
        have h3 := commit_pending_width s s2 _ hinv hcp
        rw [h2.1]
        exact h3.2
  · intro s1 j h
    unfold save_rows at h
    cases hcp : commit_pending s with
    | error e => rw [hcp] at h; cases h
    | ok s2 =>
        rw [hcp] at h
        dsimp only [Except.map] at h
        simp only [Except.ok.injEq, Prod.mk.injEq] at h
        rcases h with ⟨h1, -⟩
        rw [← h1]
        exact (commit_pending_width s s2 _ hinv hcp).2
  · intro j rs s1 hjr hw h
    unfold load_rows at h
    dsimp only at h
    rw [hjr] at h
    dsimp only [Except.map] at h
    cases h
    intro r hr
    rcases List.mem_append.mp hr with h1 | h1
    · exact hinv r h1
    · exact hw r h1

theorem row_width_invariant_amended_witness :
    (["a"] : Row).length = (["h"] : List String).length :=
  (row_width_invariant_amended grid1 (by decide)).1 ["a"] (by decide)


end Front
